import Mathlib

/-!
Verification development for the pubmed-search-api repository.
Shallow embedding of the pure logic of the four source modules
(soap_processor.py, pubmed_search.py, medlineplus_search.py, main.py).
Strings are modelled as lists of characters; Python text operations
(strip, lower, split, substring membership) are embedded for the ASCII
fragment actually used by the code.  Network and LLM calls are abstracted
as parameters of the embedded functions.
-/

/-- Python whitespace set used by str.strip and regex class backslash-s
(ASCII fragment: space, tab, newline, carriage return, vertical tab, form feed). -/
def isPySpace (c : Char) : Bool :=
  c = ' ' || c = '\t' || c = '\n' || c = '\r' || c = Char.ofNat 11 || c = Char.ofNat 12

/-- Python str.strip - drop whitespace from both ends. -/
def pyTrim (l : List Char) : List Char :=
  ((l.dropWhile isPySpace).reverse.dropWhile isPySpace).reverse

/-- ASCII lower-casing of one character, as Python str.lower acts on ASCII. -/
def asciiLower (c : Char) : Char :=
  if 65 ≤ c.toNat ∧ c.toNat ≤ 90 then Char.ofNat (c.toNat + 32) else c

/-- Python str.lower on a character list (ASCII fragment). -/
def pyLower (l : List Char) : List Char := l.map asciiLower

/-- Python str.lower on a string (ASCII fragment). -/
def pyLowerS (s : String) : String := ⟨pyLower s.data⟩

/-- Python str.split with a one-character separator: returns the list of
separated chunks, never empty, with empty chunks preserved. -/
def pySplit (sep : Char) : List Char → List (List Char)
  | [] => [[]]
  | c :: cs =>
    match pySplit sep cs with
    | [] => [[]]
    | l :: ls => if c = sep then [] :: l :: ls else (c :: l) :: ls

/-- Python text.split on a newline, as used for line iteration. -/
def pySplitLines (l : List Char) : List (List Char) := pySplit '\n' l

/-- Python substring membership, needle before haystack: the operator
`needle in haystack` on strings. -/
def subMem (n : List Char) : List Char → Bool
  | [] => n.isEmpty
  | c :: cs => n.isPrefixOf (c :: cs) || subMem n cs

/-- Numeric value of a digit run, as Python int applied to a digit string. -/
def digitsVal (l : List Char) : Nat :=
  l.foldl (fun acc c => 10 * acc + (c.toNat - 48)) 0

/-! ## pubmed_search.normalize_publication_type (lines 120-147) -/

/-- One character of the normalization pipeline of normalize_publication_type:
lower-case, then map hyphen and slash to a space. -/
def normChar (c : Char) : Char :=
  let c' := asciiLower c
  if c' = '-' ∨ c' = '/' then ' ' else c'

/-- The cleaning stage of normalize_publication_type:
`pub_type.lower().replace(hyphen, space).replace(slash, space).strip()`. -/
def preNormalize (l : List Char) : List Char := pyTrim (l.map normChar)

/-- The type_mapping table of normalize_publication_type, in source order. -/
def pubTypeTable : List (String × List String) :=
  [("clinical trial", ["clinical trial", "clinical study", "clinical research", "interventional study"]),
   ("randomized controlled trial", ["randomized controlled trial", "randomised controlled trial", "rct"]),
   ("systematic review", ["systematic review", "systematic literature review", "systematic analysis"]),
   ("meta analysis", ["meta analysis", "metaanalysis", "meta analytical study"]),
   ("case report", ["case report", "case study", "patient case"]),
   ("review", ["review", "literature review", "narrative review"]),
   ("comparative study", ["comparative study", "comparison study", "comparative analysis"]),
   ("observational study", ["observational study", "observational research"]),
   ("cohort study", ["cohort study", "cohort analysis"]),
   ("case control study", ["case control study", "case control"])]

/-- First standard type whose variation list has a member occurring as a
substring of the normalized input (the loop over type_mapping.items). -/
def pubTypeFirstMatch (n : List Char) : Option String :=
  (pubTypeTable.find? (fun p => p.2.any (fun v => subMem v.data n))).map (·.1)

/-- normalize_publication_type on a character list. -/
def normalizePubTypeL (l : List Char) : List Char :=
  match pubTypeFirstMatch (preNormalize l) with
  | some std => std.data
  | none => preNormalize l

/-- pubmed_search.normalize_publication_type (source lines 120-147). -/
def normalize_publication_type (s : String) : String := ⟨normalizePubTypeL s.data⟩

/-! ## soap_processor.VitalSigns (lines 64-103) -/

/-- The regex search for digits slash digits used by VitalSigns.parse_bp:
scan for the leftmost position where a maximal digit run is followed by a
slash and at least one digit; return the two parsed integers. -/
def parse_bp : List Char → Option (Nat × Nat)
  | [] => none
  | c :: cs =>
    if c.isDigit then
      match (List.span Char.isDigit (c :: cs)).2 with
      | '/' :: rest =>
        if (List.span Char.isDigit rest).1 ≠ [] then
          some (digitsVal (List.span Char.isDigit (c :: cs)).1,
                digitsVal (List.span Char.isDigit rest).1)
        else parse_bp cs
      | _ => parse_bp cs
    else parse_bp cs

/-- soap_processor.VitalSigns: optional raw strings for the five vitals. -/
structure VitalSignsM where
  blood_pressure : Option (List Char)
  heart_rate : Option (List Char)
  temperature : Option (List Char)
  respiratory_rate : Option (List Char)
  oxygen_saturation : Option (List Char)
deriving DecidableEq, Repr

/-- A VitalSigns value holding only a blood pressure reading. -/
def mkBPVitals (s : String) : VitalSignsM := ⟨some s.data, none, none, none, none⟩

/-- VitalSigns.get_bp_category (source lines 88-103).  The Python guards
`if self.blood_pressure` and `if systolic and diastolic` are truthiness
tests: an absent or empty string, a failed parse, and a parsed zero all
fall through to the Unknown branch. -/
def get_bp_category (v : VitalSignsM) : String :=
  match v.blood_pressure with
  | none => "Unknown"
  | some s =>
    if s = [] then "Unknown"
    else
      match parse_bp s with
      | none => "Unknown"
      | some (sy, di) =>
        if sy ≠ 0 ∧ di ≠ 0 then
          if sy ≥ 180 ∨ di ≥ 120 then "Hypertensive Crisis"
          else if sy ≥ 140 ∨ di ≥ 90 then "Stage 2 Hypertension"
          else if sy ≥ 130 ∨ di ≥ 80 then "Stage 1 Hypertension"
          else if sy ≥ 120 ∧ sy < 130 ∧ di < 80 then "Elevated"
          else "Normal"
        else "Unknown"

/-- VitalSigns.is_hypertensive (source lines 80-86), with the same
truthiness tests as get_bp_category. -/
def is_hypertensive (v : VitalSignsM) : Bool :=
  match v.blood_pressure with
  | none => false
  | some s =>
    if s = [] then false
    else
      match parse_bp s with
      | none => false
      | some (sy, di) =>
        if sy ≠ 0 ∧ di ≠ 0 then decide (sy ≥ 140 ∨ di ≥ 90) else false

/-- The blood-pressure category rules exactly as the specification words
them, for comparison against get_bp_category: ordered, first match wins. -/
def specBPCategory (sy di : Nat) : String :=
  if sy ≥ 180 ∨ di ≥ 120 then "Hypertensive Crisis"
  else if sy ≥ 140 ∨ di ≥ 90 then "Stage 2 Hypertension"
  else if sy ≥ 130 ∨ di ≥ 80 then "Stage 1 Hypertension"
  else if sy ≥ 120 ∧ sy < 130 ∧ di < 80 then "Elevated"
  else "Normal"

/-! ## soap_processor.SOAPProcessor section splitting (lines 223-249) -/

/-- The five states of the section splitter: the implicit header state and
the four marker-introduced sections. -/
inductive SecKey where
  | header | S | O | A | P
deriving DecidableEq, Repr

/-- The sections dictionary: at most one entry per possible key, none when
the key was never assigned. -/
structure Sections where
  header : Option (List Char)
  S : Option (List Char)
  O : Option (List Char)
  A : Option (List Char)
  P : Option (List Char)
deriving DecidableEq, Repr

/-- Dictionary assignment `sections[k] = v`. -/
def setSec (secs : Sections) (k : SecKey) (v : List Char) : Sections :=
  match k with
  | .header => { secs with header := some v }
  | .S => { secs with S := some v }
  | .O => { secs with O := some v }
  | .A => { secs with A := some v }
  | .P => { secs with P := some v }

/-- The join of the accumulated buffer, Python newline.join(current_text). -/
def joinBuf (buf : List (List Char)) : List Char := List.intercalate ['\n'] buf

/-- The line loop of _split_into_sections.  The S branch of the source
(lines 230-232) switches state and clears the buffer without flushing it;
the O, A and P branches (lines 233-244) flush the buffer into the entry of
the previous state before switching. -/
def splitAux : List (List Char) → SecKey → List (List Char) → Sections → Sections
  | [], cur, buf, secs => setSec secs cur (joinBuf buf)
  | line :: rest, cur, buf, secs =>
    let t := pyTrim line
    if ("S –".data).isPrefixOf t then
      splitAux rest .S [] secs
    else if ("O –".data).isPrefixOf t then
      splitAux rest .O [] (setSec secs cur (joinBuf buf))
    else if ("A –".data).isPrefixOf t then
      splitAux rest .A [] (setSec secs cur (joinBuf buf))
    else if ("P –".data).isPrefixOf t then
      splitAux rest .P [] (setSec secs cur (joinBuf buf))
    else
      splitAux rest cur (buf ++ [t]) secs

/-- SOAPProcessor._split_into_sections (source lines 223-249). -/
def splitIntoSections (text : List Char) : Sections :=
  splitAux (pySplitLines text) .header [] ⟨none, none, none, none, none⟩

/-! ## soap_processor.SOAPProcessor header extraction (lines 251-259) -/

/-- Split a line at the first colon, defined exactly when the line has one. -/
def splitOnceColon : List Char → Option (List Char × List Char)
  | [] => none
  | c :: cs =>
    if c = ':' then some ([], cs)
    else (splitOnceColon cs).map (fun p => (c :: p.1, p.2))

/-- Key normalization of _extract_patient_info:
`key.strip().lower().replace(space, underscore)`. -/
def keyNormalize (k : List Char) : List Char :=
  (pyLower (pyTrim k)).map (fun c => if c = ' ' then '_' else c)

/-- First-match association lookup; insertions prepend, so the first match
is the most recent assignment, matching dictionary semantics. -/
def assocFind (m : List (List Char × List Char)) (k : List Char) : Option (List Char) :=
  (m.find? (fun p => p.1 = k)).map (·.2)

/-- SOAPProcessor._extract_patient_info (source lines 251-259): each line
holding a colon contributes a normalized-key, stripped-value pair; a later
assignment to the same key wins. -/
def extractPatientInfo (header : List Char) : List (List Char × List Char) :=
  (pySplitLines header).foldl
    (fun info line =>
      match splitOnceColon line with
      | none => info
      | some (k, v) => (keyNormalize k, pyTrim v) :: info)
    []

/-! ## Python int() and datetime.strptime with the year-month-day format -/

/-- Digit-and-underscore tail of a Python integer literal: after a leading
digit, each underscore must be followed by a digit. -/
def pyDigitsTail : List Char → Nat → Option Nat
  | [], acc => some acc
  | c :: cs, acc =>
    if c.isDigit then pyDigitsTail cs (10 * acc + (c.toNat - 48))
    else if c = '_' then
      match cs with
      | d :: _ => if d.isDigit then pyDigitsTail cs acc else none
      | [] => none
    else none

/-- Unsigned part of a Python integer literal: nonempty, starts with a
digit, single underscores allowed between digits. -/
def pyNatParse : List Char → Option Nat
  | [] => none
  | c :: cs => if c.isDigit then pyDigitsTail cs (c.toNat - 48) else none

/-- Python int() on a string: strip whitespace, optional sign, digits with
optional single underscores between them; none models a ValueError. -/
def pyIntParse (l : List Char) : Option Int :=
  match pyTrim l with
  | '+' :: r => (pyNatParse r).map (Int.ofNat)
  | '-' :: r => (pyNatParse r).map (fun n => -(Int.ofNat n))
  | r => (pyNatParse r).map (Int.ofNat)

/-- A run of decimal digits only, with its value. -/
def allDigitsVal (l : List Char) : Option Nat :=
  if l ≠ [] ∧ l.all Char.isDigit then some (digitsVal l) else none

/-- Gregorian leap year, as datetime validates day-of-month. -/
def isLeapYear (y : Nat) : Bool := y % 4 = 0 && (y % 100 ≠ 0 || y % 400 = 0)

/-- Days in a month, as datetime validates day-of-month. -/
def daysInMonth (y m : Nat) : Nat :=
  if m = 2 then (if isLeapYear y then 29 else 28)
  else if m = 4 ∨ m = 6 ∨ m = 9 ∨ m = 11 then 30
  else 31

/-- datetime.strptime with format percent-Y dash percent-m dash percent-d:
exactly four year digits, one or two month digits valued 1 to 12, one or
two day digits valid for the month; none models a ValueError. -/
def parseYMD (l : List Char) : Option (Nat × Nat × Nat) :=
  match pySplit '-' l with
  | [ys, ms, ds] =>
    match allDigitsVal ys, allDigitsVal ms, allDigitsVal ds with
    | some y, some m, some d =>
      if ys.length = 4 ∧ 1 ≤ y ∧
         ms.length ≤ 2 ∧ 1 ≤ m ∧ m ≤ 12 ∧
         ds.length ≤ 2 ∧ 1 ≤ d ∧ d ≤ daysInMonth y m
      then some (y, m, d) else none
    | _, _, _ => none
  | _ => none

/-! ## soap_processor.SOAPProcessor._parse_plan (lines 298-320) -/

/-- The categories dictionary of _parse_plan: exactly the four fixed keys. -/
structure PlanCats where
  diagnostics : List (List Char)
  medications : List (List Char)
  lifestyle : List (List Char)
  followUp : List (List Char)
deriving DecidableEq, Repr

/-- The list access `categories[current_category].append(item)`: a key
outside the four fixed names raises a KeyError, modelled as an error
carrying the offending key. -/
def planAppend (p : PlanCats) (cat item : List Char) : Except (List Char) PlanCats :=
  if cat = "Diagnostics".data then .ok { p with diagnostics := p.diagnostics ++ [item] }
  else if cat = "Medications".data then .ok { p with medications := p.medications ++ [item] }
  else if cat = "Lifestyle".data then .ok { p with lifestyle := p.lifestyle ++ [item] }
  else if cat = "Follow-Up".data then .ok { p with followUp := p.followUp ++ [item] }
  else .error cat

/-- The line loop of _parse_plan: skip blank lines; a stripped line ending
in a colon opens the named category unconditionally; a dash line under an
open category appends its stripped tail there.  The guard
`if current_category and line.startswith(dash)` is a truthiness test: the
empty category name opened by a bare colon line counts as no open
category, so a bullet under it is skipped rather than looked up. -/
def parsePlanAux : List (List Char) → Option (List Char) → PlanCats → Except (List Char) PlanCats
  | [], _, p => .ok p
  | line :: rest, cur, p =>
    let t := pyTrim line
    if t = [] then parsePlanAux rest cur p
    else if t.getLast? = some ':' then parsePlanAux rest (some t.dropLast) p
    else
      match cur with
      | none => parsePlanAux rest cur p
      | some c =>
        if c ≠ [] ∧ t.head? = some '-' then
          match planAppend p c (pyTrim (t.drop 1)) with
          | .error e => .error e
          | .ok p' => parsePlanAux rest cur p'
        else parsePlanAux rest cur p

/-- SOAPProcessor._parse_plan (source lines 298-320). -/
def parsePlan (s : List Char) : Except (List Char) PlanCats :=
  parsePlanAux (pySplitLines s) none ⟨[], [], [], []⟩

/-- The four category names of the plan dictionary. -/
def fixedPlanCats : List (List Char) :=
  ["Diagnostics".data, "Medications".data, "Lifestyle".data, "Follow-Up".data]

/-- Companion scan for the amended plan claim: true when no dash line sits
under an open nonempty category outside the fixed set, i.e. when
_parse_plan cannot raise; a bullet under the empty category name opened by
a bare colon line is skipped by the truthiness guard. -/
def planScanOk : List (List Char) → Option (List Char) → Bool
  | [], _ => true
  | line :: rest, cur =>
    let t := pyTrim line
    if t = [] then planScanOk rest cur
    else if t.getLast? = some ':' then planScanOk rest (some t.dropLast)
    else
      match cur with
      | none => planScanOk rest cur
      | some c =>
        if c ≠ [] ∧ t.head? = some '-' then fixedPlanCats.contains c && planScanOk rest cur
        else planScanOk rest cur

/-- Companion collector for the amended plan claim: the stripped tails of
the dash lines whose most recently opened category is the given nonempty
name. -/
def planCollect (cat : List Char) : List (List Char) → Option (List Char) → List (List Char)
  | [], _ => []
  | line :: rest, cur =>
    let t := pyTrim line
    if t = [] then planCollect cat rest cur
    else if t.getLast? = some ':' then planCollect cat rest (some t.dropLast)
    else
      match cur with
      | none => planCollect cat rest cur
      | some c =>
        if c ≠ [] ∧ t.head? = some '-' then
          if c = cat then pyTrim (t.drop 1) :: planCollect cat rest cur
          else planCollect cat rest cur
        else planCollect cat rest cur

/-! ## soap_processor.SOAPProcessor vitals and assessment (lines 261-296) -/

/-- re.search over a text: try the matcher at every start position from the
left and return the first group it produces. -/
def scanFind (f : List Char → Option (List Char)) : List Char → Option (List Char)
  | [] => f []
  | c :: cs =>
    match f (c :: cs) with
    | some g => some g
    | none => scanFind f cs

/-- Match a literal token, skip following whitespace, then apply a group
matcher, as the vital-sign regexes do. -/
def grabAfter (tok : List Char) (g : List Char → Option (List Char)) (l : List Char) : Option (List Char) :=
  if tok.isPrefixOf l then g ((l.drop tok.length).dropWhile isPySpace) else none

/-- Group of one or more digits. -/
def digitRun (l : List Char) : Option (List Char) :=
  if (List.span Char.isDigit l).1 ≠ [] then some (List.span Char.isDigit l).1 else none

/-- Group of one or more digits or dots, for the temperature pattern. -/
def numDotRun (l : List Char) : Option (List Char) :=
  if (List.span (fun c => c.isDigit || c = '.') l).1 ≠ [] then
    some (List.span (fun c => c.isDigit || c = '.') l).1
  else none

/-- Group of digits slash digits, for the blood-pressure pattern. -/
def bpGroup (l : List Char) : Option (List Char) :=
  if (List.span Char.isDigit l).1 ≠ [] then
    match (List.span Char.isDigit l).2 with
    | '/' :: r2 =>
      if (List.span Char.isDigit r2).1 ≠ [] then
        some ((List.span Char.isDigit l).1 ++ '/' :: (List.span Char.isDigit r2).1)
      else none
    | _ => none
  else none

/-- Group of digits followed by a percent sign, for the saturation pattern. -/
def digitPct (l : List Char) : Option (List Char) :=
  if (List.span Char.isDigit l).1 ≠ [] then
    match (List.span Char.isDigit l).2 with
    | '%' :: _ => some ((List.span Char.isDigit l).1 ++ ['%'])
    | _ => none
  else none

/-- SOAPProcessor._parse_vital_signs (source lines 261-286): five
independent targeted regex extractions against the objective text. -/
def parseVitalSigns (obj : List Char) : VitalSignsM :=
  { blood_pressure := scanFind (grabAfter "BP:".data bpGroup) obj
    heart_rate := scanFind (grabAfter "HR:".data digitRun) obj
    temperature := scanFind (grabAfter "Temp:".data numDotRun) obj
    respiratory_rate := scanFind (grabAfter "RR:".data digitRun) obj
    oxygen_saturation := scanFind (grabAfter "SpO₂:".data digitPct) obj }

/-- The line loop of _parse_assessment: drop lines holding a dash of either
kind, keep the stripped text of the remaining nonempty lines. -/
def assessLines : List (List Char) → List (List Char)
  | [] => []
  | l :: ls =>
    if l.contains '–' || l.contains '-' then assessLines ls
    else if pyTrim l ≠ [] then pyTrim l :: assessLines ls
    else assessLines ls

/-- SOAPProcessor._parse_assessment (source lines 288-296). -/
def parseAssessment (s : List Char) : List (List Char) :=
  assessLines (pySplitLines s)

/-! ## soap_processor.SOAPProcessor.parse_soap_note (lines 196-221) -/

/-- The exceptions parse_soap_note can raise: a KeyError escaping
_parse_plan, a ValueError from int applied to the age field, a ValueError
from strptime applied to the date field.  No ParseError type exists in the
repository. -/
inductive PErr where
  | keyErr (cat : List Char)
  | ageErr
  | dateErr
deriving DecidableEq, Repr

/-- soap_processor.SOAPNote.  The objective dictionary of the source holds
the vitals and the raw exam text; both appear here as separate fields. -/
structure SOAPNoteM where
  patient_name : List Char
  age : Int
  date : Nat × Nat × Nat
  provider : List Char
  visit_type : List Char
  subjective : List Char
  objective_exam : List Char
  assessment : List (List Char)
  plan : PlanCats
  vital_signs : VitalSignsM
deriving DecidableEq, Repr

/-- SOAPProcessor.parse_soap_note (source lines 196-221).  Evaluation
order of the fallible steps follows the source: _parse_plan runs first
(line 208), then the age conversion (line 212), then strptime on the date
(line 213).  A missing age key defaults to the integer zero before the
conversion, so only a present, malformed age value fails. -/
def parse_soap_note (text : List Char) : Except PErr SOAPNoteM :=
  let secs := splitIntoSections text
  let info := extractPatientInfo (secs.header.getD [])
  let vitals := parseVitalSigns (secs.O.getD [])
  let assessment := parseAssessment (secs.A.getD [])
  match parsePlan (secs.P.getD []) with
  | .error c => .error (.keyErr c)
  | .ok plan =>
    match (match assocFind info "age".data with
           | none => some (0 : Int)
           | some v => pyIntParse v) with
    | none => .error .ageErr
    | some age =>
      match parseYMD ((assocFind info "date".data).getD []) with
      | none => .error .dateErr
      | some date =>
        .ok { patient_name := (assocFind info "name".data).getD []
              age := age
              date := date
              provider := (assocFind info "provider".data).getD []
              visit_type := (assocFind info "visit_type".data).getD []
              subjective := secs.S.getD []
              objective_exam := secs.O.getD []
              assessment := assessment
              plan := plan
              vital_signs := vitals }

/-! ## soap_processor medication recommendations (lines 422-435) -/

/-- The medication_classes table of SOAPProcessor, in source order. -/
def medicationClasses : List (String × List (String × List String)) :=
  [("hypertension",
    [("ACE Inhibitors", ["lisinopril", "ramipril"]),
     ("ARBs", ["losartan", "valsartan"]),
     ("CCBs", ["amlodipine", "diltiazem"]),
     ("Thiazides", ["hydrochlorothiazide", "chlorthalidone"])]),
   ("angina",
    [("Beta Blockers", ["metoprolol", "carvedilol"]),
     ("Nitrates", ["nitroglycerin", "isosorbide"]),
     ("CCBs", ["amlodipine", "diltiazem"]),
     ("Antiplatelet", ["aspirin", "clopidogrel"])])]

/-- One entry of the medications recommendation list. -/
structure MedRec where
  action : String
  rationale : String
  examples : List String
  guideline : String
deriving DecidableEq, Repr

/-- The record appended for one drug class under one condition. -/
def mkMedRec (cond : String) (cls : String × List String) : MedRec :=
  { action := "Consider " ++ cls.1
    rationale := "Standard therapy for " ++ cond
    examples := cls.2
    guideline := "Current " ++ cond ++ " Guidelines" }

/-- The medications section of generate_recommendations (source lines
422-435): for each assessment condition and each table category whose name
is a substring of the lower-cased condition, recommend every drug class
none of whose example names equals a current plan medication. -/
def medicationRecs (assessment current_meds : List String) : List MedRec :=
  assessment.flatMap (fun cond =>
    medicationClasses.flatMap (fun catp =>
      if subMem catp.1.data (pyLowerS cond).data then
        (catp.2.filter (fun cls => !(current_meds.any (fun m => cls.2.contains m)))).map
          (mkMedRec cond)
      else []))

/-! ## main.process_soap evidence aggregation (lines 234-274) -/

/-- The evidence dictionary of the process_soap endpoint: its four bucket
keys as initialized at lines 234-239. -/
structure Evidence (α : Type) where
  clinical_guidelines : List α
  treatment : List α
  age_specific : List α
  medication : List α
deriving DecidableEq, Repr

/-- The keys of the process_soap evidence dictionary. -/
def evidenceKeys : List String :=
  ["clinical_guidelines", "treatment", "age_specific", "medication"]

/-- Read one bucket by key name; an unknown key reads as empty. -/
def bucketOf (ev : Evidence α) (k : String) : List α :=
  if k = "clinical_guidelines" then ev.clinical_guidelines
  else if k = "treatment" then ev.treatment
  else if k = "age_specific" then ev.age_specific
  else if k = "medication" then ev.medication
  else []

/-- The dictionary access `evidence[k].append(x)`: appending under a key
outside the four buckets raises a KeyError, modelled as an error carrying
the key. -/
def evAppend (ev : Evidence α) (k : String) (x : α) : Except String (Evidence α) :=
  if k = "clinical_guidelines" then .ok { ev with clinical_guidelines := ev.clinical_guidelines ++ [x] }
  else if k = "treatment" then .ok { ev with treatment := ev.treatment ++ [x] }
  else if k = "age_specific" then .ok { ev with age_specific := ev.age_specific ++ [x] }
  else if k = "medication" then .ok { ev with medication := ev.medication ++ [x] }
  else .error k

/-- A generated query as produced by generate_search_queries: text, focus
and priority strings. -/
structure GenQuery where
  text : String
  focus : String
  priority : String
deriving DecidableEq, Repr

/-- The record appended to a bucket for one query: the success record with
the fetched results, or the failure record with the error text. -/
inductive QueryOutcome (ρ : Type) where
  | success (query : String) (results : ρ)
  | failure (query : String) (error : String)
deriving DecidableEq, Repr

/-- One iteration of the process_soap query loop (source lines 241-274).
The combined PubMed and MedlinePlus fetch for one query is abstracted as
the `search` argument; a MedlinePlus failure is converted to data inside
the inner handler of the source and therefore belongs to the ok case.
The outer per-query handler catches both a search failure and a KeyError
from the success-path append, and itself appends to the same bucket, so an
unknown focus makes the handler re-raise the KeyError. -/
def processSoapStep (search : GenQuery → Except String ρ)
    (ev : Evidence (QueryOutcome ρ)) (q : GenQuery) :
    Except String (Evidence (QueryOutcome ρ)) :=
  match (match search q with
         | .error e => (.error e : Except String (Evidence (QueryOutcome ρ)))
         | .ok r => evAppend ev q.focus (.success q.text r)) with
  | .ok ev' => .ok ev'
  | .error e => evAppend ev q.focus (.failure q.text e)

/-- The process_soap evidence aggregation loop over the generated queries:
an uncaught exception in one iteration aborts the remaining iterations and
the endpoint answers with an HTTP 500 error. -/
def processSoapEvidence (search : GenQuery → Except String ρ) (qs : List GenQuery) :
    Except String (Evidence (QueryOutcome ρ)) :=
  qs.foldlM (processSoapStep search) ⟨[], [], [], []⟩

/-! ## main.analyze_soap_note evidence aggregation (lines 398-443) -/

/-- The evidence dictionary of the analyze endpoint (lines 398-403). -/
structure EvidenceA (α : Type) where
  clinical_guidelines : List α
  treatment : List α
  diagnosis : List α
  medication : List α
deriving DecidableEq, Repr

/-- The keys of the analyze evidence dictionary. -/
def analyzeKeys : List String :=
  ["clinical_guidelines", "treatment", "diagnosis", "medication"]

/-- The record appended for one query in the analyze loop. -/
structure AnalyzeEntry (ρ : Type) where
  query : String
  priority : String
  results : ρ
deriving DecidableEq, Repr

/-- Append into the analyze evidence dictionary; the caller normalizes the
key into the key set first, so the final branch is never reached there. -/
def appendA (ev : EvidenceA α) (k : String) (x : α) : EvidenceA α :=
  if k = "treatment" then { ev with treatment := ev.treatment ++ [x] }
  else if k = "diagnosis" then { ev with diagnosis := ev.diagnosis ++ [x] }
  else if k = "medication" then { ev with medication := ev.medication ++ [x] }
  else { ev with clinical_guidelines := ev.clinical_guidelines ++ [x] }

/-- Read one bucket of the analyze evidence dictionary by key name. -/
def bucketOfA (ev : EvidenceA α) (k : String) : List α :=
  if k = "clinical_guidelines" then ev.clinical_guidelines
  else if k = "treatment" then ev.treatment
  else if k = "diagnosis" then ev.diagnosis
  else if k = "medication" then ev.medication
  else []

/-- One iteration of the analyze_soap_note query loop (source lines
405-443): low-priority queries are skipped; any failure is logged and the
loop continues without recording anything; on success the lower-cased
focus is kept when it is a bucket key and replaced by clinical_guidelines
otherwise (lines 430-432). -/
def analyzeStep (search : GenQuery → Except String ρ)
    (ev : EvidenceA (AnalyzeEntry ρ)) (q : GenQuery) : EvidenceA (AnalyzeEntry ρ) :=
  if pyLowerS q.priority = "high" ∨ pyLowerS q.priority = "medium" then
    match search q with
    | .error _ => ev
    | .ok r =>
      let focus := pyLowerS q.focus
      let focus := if analyzeKeys.contains focus then focus else "clinical_guidelines"
      appendA ev focus ⟨q.text, q.priority, r⟩
  else ev

/-- The analyze_soap_note evidence aggregation loop: total, never raises. -/
def analyzeEvidence (search : GenQuery → Except String ρ) (qs : List GenQuery) :
    EvidenceA (AnalyzeEntry ρ) :=
  qs.foldl (analyzeStep search) ⟨[], [], [], []⟩

/-! ## medlineplus_search.MedlinePlusAPI cache (lines 49-94, 152-154) -/

/-- The cache time-to-live: twelve hours, in seconds. -/
def cacheDuration : Int := 43200

/-- Lookup in the cache dictionary: the value and insertion timestamp
stored under the key, when present. -/
def cacheLookup (c : List (String × α × Int)) (k : String) : Option (α × Int) :=
  (c.find? (fun e => e.1 == k)).map (·.2)

/-- Dictionary deletion `del self.cache[key]`. -/
def cacheErase (c : List (String × α × Int)) (k : String) : List (String × α × Int) :=
  c.filter (fun e => !(e.1 == k))

/-- MedlinePlusAPI._get_from_cache (source lines 56-63): a fresh entry is
returned; a stale entry is deleted and the key reported absent. -/
def getFromCache (now : Int) (c : List (String × α × Int)) (k : String) :
    Option α × List (String × α × Int) :=
  match cacheLookup c k with
  | none => (none, c)
  | some (v, ts) => if now - ts < cacheDuration then (some v, c) else (none, cacheErase c k)

/-- MedlinePlusAPI._add_to_cache (source lines 65-66): dictionary
assignment, one live entry per key; prepending together with first-match
lookup realizes the overwrite. -/
def addToCache (now : Int) (c : List (String × α × Int)) (k : String) (v : α) :
    List (String × α × Int) :=
  (k, v, now) :: cacheErase c k

/-- A field of the result dictionary built by search_health_topics. -/
inductive MPField where
  | num (n : Nat)
  | text (s : String)
  | topicList (ts : List String)
deriving DecidableEq, Repr

/-- The result dictionary built by search_health_topics, as a key-field
association; Python truthiness of a dictionary is non-emptiness. -/
abbrev MPDict := List (String × MPField)

/-- The cache key composition of search_health_topics (source line 88). -/
def mkCacheKey (query language : String) (maxResults : Nat) (retType : String) : String :=
  query ++ ":" ++ language ++ ":" ++ toString maxResults ++ ":" ++ retType

/-- MedlinePlusAPI.search_health_topics (source lines 68-154), with the
rate limiter elided and the network fetch plus XML parse abstracted as the
`fetched` argument: a cache hit that is truthy is returned as is; on a
miss, a fetch error raises MedlinePlusError and the cache keeps only the
stale-entry deletion; a fetch success is cached under the key with the
current timestamp and returned. -/
def searchHealthTopics (now : Int) (c : List (String × MPDict × Int)) (k : String)
    (fetched : Except String MPDict) : Except String (MPDict × List (String × MPDict × Int)) :=
  match getFromCache now c k with
  | (some v, c1) =>
    if v ≠ [] then .ok (v, c1)
    else
      match fetched with
      | .error e => .error e
      | .ok r => .ok (r, addToCache now c1 k r)
  | (none, c1) =>
    match fetched with
    | .error e => .error e
    | .ok r => .ok (r, addToCache now c1 k r)

/-- Field selection in the plan dictionary by category name. -/
def planField (p : PlanCats) (cat : List Char) : List (List Char) :=
  if cat = "Diagnostics".data then p.diagnostics
  else if cat = "Medications".data then p.medications
  else if cat = "Lifestyle".data then p.lifestyle
  else if cat = "Follow-Up".data then p.followUp
  else []

/-- A well-formed note: header identity lines, then the four section
markers in canonical order with content lines under each. -/
def demoNote : String :=
  "Name: John Doe\nAge: 58\nDate: 2024-03-10\nProvider: Dr. Lee\nVisit Type: Follow-up\nS – Subjective\nReports chest pain\nO – Objective\nBP: 150/95\nA – Assessment\nHypertension\nP – Plan\nMedications:\n- lisinopril"

/-- The header dictionary a note produces through the section splitter. -/
def headerInfo (text : List Char) : List (List Char × List Char) :=
  extractPatientInfo ((splitIntoSections text).header.getD [])

/-- The age conversion of parse_soap_note succeeds: the age key is absent
(the default integer zero is used) or its value is a valid integer. -/
def ageOk (info : List (List Char × List Char)) : Bool :=
  match assocFind info "age".data with
  | none => true
  | some v => (pyIntParse v).isSome

/-- The date conversion of parse_soap_note succeeds on the header. -/
def dateOk (info : List (List Char × List Char)) : Bool :=
  (parseYMD ((assocFind info "date".data).getD [])).isSome

/-! ## Claim theorems -/

set_option maxRecDepth 4000 in
/-- C1 (code defect): on a well-formed note whose four markers appear in
canonical order, the section splitter discards every line preceding the
first marker instead of flushing them into the header entry: the S branch
clears the buffer without a flush, so the sections dictionary has no
header key, while the lines after each marker do land in the section of
the most recent marker. -/
theorem c1_split_discards_header :
    (splitIntoSections demoNote.data).header = none
    ∧ (splitIntoSections demoNote.data).S = some "Reports chest pain".data
    ∧ (splitIntoSections demoNote.data).O = some "BP: 150/95".data
    ∧ (splitIntoSections demoNote.data).A = some "Hypertension".data
    ∧ (splitIntoSections demoNote.data).P = some "Medications:\n- lisinopril".data := by
  refine ⟨rfl, rfl, rfl, rfl, rfl⟩

/-- C2 (code defect): in the process_soap aggregation loop a query whose
focus is not one of the four bucket keys is not defaulted to the
clinical_guidelines bucket: the append raises a KeyError, the per-query
handler re-raises it, and the whole run aborts; the analyze loop, in
contrast, does default an unknown focus to clinical_guidelines. -/
theorem c2_process_soap_no_default :
    processSoapEvidence (ρ := Nat) (fun _ => .ok 7)
      [⟨"using ASCVD Risk Calculator for cardiovascular risk assessment", "risk_assessment", "medium"⟩]
      = .error "risk_assessment"
    ∧ analyzeEvidence (ρ := Nat) (fun _ => .ok 7) [⟨"q", "unknown_focus", "high"⟩]
      = ⟨[⟨"q", "high", 7⟩], [], [], []⟩ := by
  refine ⟨rfl, rfl⟩

/-- C10 (confirmed): when the blood-pressure string parses to a pair with
a zero systolic or zero diastolic value, the truthiness test treats the
zero like a failed parse, so get_bp_category answers Unknown and
is_hypertensive answers false. -/
theorem c10_zero_bp_unknown (s : String) (sy di : Nat)
    (hp : parse_bp s.data = some (sy, di)) (h0 : sy = 0 ∨ di = 0) :
    get_bp_category (mkBPVitals s) = "Unknown" ∧ is_hypertensive (mkBPVitals s) = false := by
  have hne : ¬ (s.data = []) := by
    intro he
    rw [he] at hp
    simp [parse_bp] at hp
  have hz : ¬ (sy ≠ 0 ∧ di ≠ 0) := by
    rcases h0 with h | h <;> simp [h]
  constructor <;> simp [get_bp_category, is_hypertensive, mkBPVitals, hne, hp, hz]

/-- Witness for C10 at the concrete reading 120 over 0. -/
theorem c10_witness :
    get_bp_category (mkBPVitals "120/0") = "Unknown"
    ∧ is_hypertensive (mkBPVitals "120/0") = false :=
  c10_zero_bp_unknown "120/0" 120 0 (by decide) (Or.inr rfl)

/-- C6 counterexample: the string 120 over 0 parses to the integer pair
(120, 0), the ordered rules of the claim give Elevated for that pair, yet
get_bp_category answers Unknown, so the claim as stated fails. -/
theorem c6_counterexample :
    parse_bp ("120/0").data = some (120, 0)
    ∧ specBPCategory 120 0 = "Elevated"
    ∧ get_bp_category (mkBPVitals "120/0") ≠ specBPCategory 120 0 := by
  refine ⟨by decide, by decide, by decide⟩

/-- C6 (amended): for every blood-pressure string parsing to two nonzero
integers, get_bp_category follows the ordered first-match rules of the
specification; a string with no digits-slash-digits occurrence gives
Unknown; and the five concrete readings of the claim land in the stated
categories. -/
theorem c6_bp_category :
    (∀ (s : String) (sy di : Nat), parse_bp s.data = some (sy, di) → sy ≠ 0 → di ≠ 0 →
       get_bp_category (mkBPVitals s) = specBPCategory sy di)
    ∧ (∀ s : String, parse_bp s.data = none → get_bp_category (mkBPVitals s) = "Unknown")
    ∧ get_bp_category (mkBPVitals "180/120") = "Hypertensive Crisis"
    ∧ get_bp_category (mkBPVitals "150/95") = "Stage 2 Hypertension"
    ∧ get_bp_category (mkBPVitals "135/85") = "Stage 1 Hypertension"
    ∧ get_bp_category (mkBPVitals "122/75") = "Elevated"
    ∧ get_bp_category (mkBPVitals "110/70") = "Normal"
    ∧ get_bp_category (mkBPVitals "no reading") = "Unknown" := by
  refine ⟨?_, ?_, by decide, by decide, by decide, by decide, by decide, by decide⟩
  · intro s sy di hp hs hd
    have hne : ¬ (s.data = []) := by
      intro he
      rw [he] at hp
      simp [parse_bp] at hp
    simp [get_bp_category, mkBPVitals, hne, hp, hs, hd, specBPCategory]
  · intro s hp
    by_cases he : s.data = []
    · simp [get_bp_category, mkBPVitals, he]
    · simp [get_bp_category, mkBPVitals, he, hp]

/-- Witness for C6 at the concrete reading 150 over 95. -/
theorem c6_witness :
    get_bp_category (mkBPVitals "150/95") = specBPCategory 150 95 :=
  c6_bp_category.1 "150/95" 150 95 (by decide) (by decide) (by decide)

/-- Looking a key up after erasing it finds nothing. -/
theorem cacheLookup_erase (c : List (String × α × Int)) (k : String) :
    cacheLookup (cacheErase c k) k = none := by
  have h : (cacheErase c k).find? (fun e => e.1 == k) = none := by
    apply List.find?_eq_none.mpr
    intro x hx
    have hx2 := (List.mem_filter.mp hx).2
    simpa using hx2
  simp [cacheLookup, h]

/-- C9 (confirmed): _get_from_cache returns the stored value only while
the lookup time minus the insertion timestamp is strictly below the
time-to-live; a stale entry is deleted during the lookup and the key
reported absent; search_health_topics then fetches fresh data and caches
it under the key with the current timestamp. -/
theorem c9_cache_ttl :
    (∀ (α : Type) (now : Int) (c : List (String × α × Int)) (k : String) (v : α),
       (getFromCache now c k).1 = some v →
         ∃ ts, cacheLookup c k = some (v, ts) ∧ now - ts < cacheDuration)
    ∧ (∀ (α : Type) (now : Int) (c : List (String × α × Int)) (k : String) (v : α) (ts : Int),
       cacheLookup c k = some (v, ts) → cacheDuration ≤ now - ts →
         getFromCache now c k = (none, cacheErase c k)
         ∧ cacheLookup (cacheErase c k) k = none)
    ∧ (∀ (now : Int) (c : List (String × MPDict × Int)) (k : String) (v : MPDict) (ts : Int) (r : MPDict),
       cacheLookup c k = some (v, ts) → cacheDuration ≤ now - ts →
         searchHealthTopics now c k (.ok r) = .ok (r, addToCache now (cacheErase c k) k r)
         ∧ cacheLookup (addToCache now (cacheErase c k) k r) k = some (r, now)) := by
  refine ⟨?_, ?_, ?_⟩
  · intro α now c k v h
    unfold getFromCache at h
    cases hl : cacheLookup c k with
    | none => rw [hl] at h; simp at h
    | some p =>
      obtain ⟨v', ts⟩ := p
      rw [hl] at h
      by_cases hf : now - ts < cacheDuration
      · simp [hf] at h
        exact ⟨ts, by rw [h], hf⟩
      · simp [hf] at h
  · intro α now c k v ts hl hs
    have hf : ¬ (now - ts < cacheDuration) := not_lt.mpr hs
    exact ⟨by simp [getFromCache, hl, hf], cacheLookup_erase c k⟩
  · intro now c k v ts r hl hs
    have hf : ¬ (now - ts < cacheDuration) := not_lt.mpr hs
    have hg : getFromCache now c k = (none, cacheErase c k) := by
      simp [getFromCache, hl, hf]
    constructor
    · simp [searchHealthTopics, hg]
    · simp [addToCache, cacheLookup, List.find?]

/-- Witness for C9: a twelve-hour-old entry is stale at second 43200, is
erased by the lookup, and the fresh fetch result is cached. -/
theorem c9_witness :
    getFromCache (43200 : Int) [("q:en:5:all", (7 : Nat), (0 : Int))] "q:en:5:all"
      = (none, cacheErase [("q:en:5:all", (7 : Nat), (0 : Int))] "q:en:5:all")
    ∧ searchHealthTopics (43200 : Int) [("k", ([("count", MPField.num 3)] : MPDict), (0 : Int))] "k"
        (.ok [("count", MPField.num 5)])
      = .ok ([("count", MPField.num 5)],
             addToCache 43200 (cacheErase [("k", ([("count", MPField.num 3)] : MPDict), (0 : Int))] "k") "k"
               [("count", MPField.num 5)]) :=
  ⟨(c9_cache_ttl.2.1 Nat 43200 _ "q:en:5:all" 7 0 (by decide) (by decide)).1,
   (c9_cache_ttl.2.2 43200 _ "k" [("count", MPField.num 3)] 0 [("count", MPField.num 5)]
     (by decide) (by decide)).1⟩

/-- C7 (confirmed): the medications recommendation list holds exactly one
entry per drug class of each table category matching an assessment
condition, minus the classes one of whose example drug names equals a
current plan medication; in particular lisinopril under hypertension
excludes the ACE Inhibitors class while ARBs, CCBs and Thiazides remain. -/
theorem c7_medication_classes :
    (∀ (assessment current_meds : List String) (r : MedRec),
       r ∈ medicationRecs assessment current_meds ↔
         ∃ cond ∈ assessment, ∃ p ∈ medicationClasses,
           subMem p.1.data (pyLowerS cond).data = true
           ∧ ∃ cls ∈ p.2, (∀ m ∈ current_meds, m ∉ cls.2) ∧ r = mkMedRec cond cls)
    ∧ medicationRecs ["hypertension"] ["lisinopril"]
      = [mkMedRec "hypertension" ("ARBs", ["losartan", "valsartan"]),
         mkMedRec "hypertension" ("CCBs", ["amlodipine", "diltiazem"]),
         mkMedRec "hypertension" ("Thiazides", ["hydrochlorothiazide", "chlorthalidone"])]
    ∧ (∀ r ∈ medicationRecs ["hypertension"] ["lisinopril"],
         r.action ≠ "Consider ACE Inhibitors") := by
  refine ⟨?_, by decide, by decide⟩
  intro assessment current_meds r
  simp only [medicationRecs, List.mem_flatMap]
  constructor
  · rintro ⟨cond, hcond, p, hp, hr2⟩
    by_cases hsub : subMem p.1.data (pyLowerS cond).data = true
    · rw [if_pos hsub] at hr2
      obtain ⟨cls, hcls, hre⟩ := List.mem_map.mp hr2
      have hfil := List.mem_filter.mp hcls
      have hany := hfil.2
      simp only [Bool.not_eq_true', List.any_eq_false] at hany
      refine ⟨cond, hcond, p, hp, hsub, cls, hfil.1, ?_, hre.symm⟩
      intro m hm hmem
      have := hany m hm
      simp [List.contains, List.elem_eq_mem, hmem] at this
    · rw [if_neg hsub] at hr2
      simp at hr2
  · rintro ⟨cond, hcond, p, hp, hsub, cls, hcls, hnotin, rfl⟩
    refine ⟨cond, hcond, p, hp, ?_⟩
    rw [if_pos hsub]
    apply List.mem_map.mpr
    refine ⟨cls, List.mem_filter.mpr ⟨hcls, ?_⟩, rfl⟩
    simp only [Bool.not_eq_true', List.any_eq_false]
    intro m hm
    simp [List.contains, List.elem_eq_mem]
    exact hnotin m hm

/-- Witness for C7: the ARB recommendation produced for lisinopril under
hypertension is not the ACE class. -/
theorem c7_witness :
    (mkMedRec "hypertension" ("ARBs", ["losartan", "valsartan"])).action
      ≠ "Consider ACE Inhibitors" :=
  c7_medication_classes.2.2 _ (by decide)

/-- Appending under a bucket key succeeds and changes exactly that bucket,
extending it by the appended entry. -/
theorem evAppend_mem {α : Type} (ev : Evidence α) (k : String) (x : α) (hk : k ∈ evidenceKeys) :
    ∃ ev', evAppend ev k x = .ok ev'
      ∧ ∀ k', bucketOf ev' k' = if k' = k then bucketOf ev k' ++ [x] else bucketOf ev k' := by
  have hk' : k = "clinical_guidelines" ∨ k = "treatment"
      ∨ k = "age_specific" ∨ k = "medication" := by
    simpa [evidenceKeys] using hk
  rcases hk' with rfl | rfl | rfl | rfl <;>
    refine ⟨_, rfl, fun k' => ?_⟩ <;>
    · simp only [bucketOf]
      split_ifs <;> simp_all

/-- One process_soap iteration succeeds when the query focus is a bucket
key: the result keeps every existing bucket entry, and a search failure is
recorded as failure data in the focus bucket. -/
theorem processSoapStep_ok {ρ : Type} (search : GenQuery → Except String ρ)
    (ev : Evidence (QueryOutcome ρ)) (q : GenQuery) (hf : q.focus ∈ evidenceKeys) :
    ∃ ev', processSoapStep search ev q = .ok ev'
      ∧ (∀ k x, x ∈ bucketOf ev k → x ∈ bucketOf ev' k)
      ∧ (∀ e, search q = .error e → QueryOutcome.failure q.text e ∈ bucketOf ev' q.focus) := by
  cases hs : search q with
  | ok r =>
    obtain ⟨ev', ha, hb⟩ := evAppend_mem ev q.focus (.success q.text r) hf
    refine ⟨ev', ?_, ?_, ?_⟩
    · unfold processSoapStep
      rw [hs]
      show (match evAppend ev q.focus (QueryOutcome.success q.text r) with
            | .ok ev2 => (.ok ev2 : Except String (Evidence (QueryOutcome ρ)))
            | .error e => evAppend ev q.focus (.failure q.text e)) = .ok ev'
      rw [ha]
    · intro k x hx
      rw [hb k]
      by_cases hkq : k = q.focus
      · subst hkq
        simp [hx]
      · simp [hkq, hx]
    · intro e he
      simp at he
  | error e =>
    obtain ⟨ev', ha, hb⟩ := evAppend_mem ev q.focus (.failure q.text e) hf
    refine ⟨ev', ?_, ?_, ?_⟩
    · unfold processSoapStep
      rw [hs]
      exact ha
    · intro k x hx
      rw [hb k]
      by_cases hkq : k = q.focus
      · subst hkq
        simp [hx]
      · simp [hkq, hx]
    · intro e2 he2
      have he : e = e2 := Except.error.inj he2
      subst he
      rw [hb]
      simp

/-- Folding the process_soap loop from any starting evidence succeeds when
every focus is a bucket key, keeps existing entries, and records every
search failure in its focus bucket. -/
theorem processSoap_fold {ρ : Type} (search : GenQuery → Except String ρ) :
    ∀ (qs : List GenQuery) (ev0 : Evidence (QueryOutcome ρ)),
      (∀ q ∈ qs, q.focus ∈ evidenceKeys) →
      ∃ ev, qs.foldlM (processSoapStep search) ev0 = .ok ev
        ∧ (∀ k x, x ∈ bucketOf ev0 k → x ∈ bucketOf ev k)
        ∧ (∀ q ∈ qs, ∀ e, search q = .error e →
             QueryOutcome.failure q.text e ∈ bucketOf ev q.focus) := by
  intro qs
  induction qs with
  | nil =>
    intro ev0 _
    exact ⟨ev0, rfl, fun k x h => h, by simp⟩
  | cons q qs ih =>
    intro ev0 hall
    obtain ⟨ev1, h1, hmono1, hfail1⟩ :=
      processSoapStep_ok search ev0 q (hall q (List.mem_cons_self q qs))
    obtain ⟨ev, h2, hmono2, hfail2⟩ := ih ev1 (fun p hp => hall p (List.mem_cons_of_mem q hp))
    refine ⟨ev, ?_, fun k x hx => hmono2 k x (hmono1 k x hx), ?_⟩
    · rw [List.foldlM_cons, h1]
      simpa using h2
    · intro p hp e he
      rcases List.mem_cons.mp hp with rfl | hp'
      · exact hmono2 _ _ (hfail1 e he)
      · exact hfail2 p hp' e he

/-- C3 counterexample: a single failing query whose focus is the
generator-emitted string risk_assessment aborts the whole process_soap
run with a KeyError instead of being recorded as failure data, and the
second query is never processed. -/
theorem c3_counterexample :
    processSoapEvidence (ρ := Nat) (fun _ => .error "network unreachable")
      [⟨"qa", "risk_assessment", "medium"⟩, ⟨"qb", "medication", "high"⟩]
      = .error "risk_assessment" := by
  rfl

/-- C3 (amended): when every generated query has a focus among the four
evidence bucket keys, the process_soap loop finishes without raising, and
each query whose search raised has a failure record with its query text
and error string in its focus bucket; a failing query with a focus
outside the key set instead aborts the run with a KeyError. -/
theorem c3_failure_is_data {ρ : Type} (search : GenQuery → Except String ρ)
    (qs : List GenQuery) (hall : ∀ q ∈ qs, q.focus ∈ evidenceKeys) :
    ∃ ev, processSoapEvidence search qs = .ok ev
      ∧ ∀ q ∈ qs, ∀ e, search q = .error e →
          QueryOutcome.failure q.text e ∈ bucketOf ev q.focus := by
  obtain ⟨ev, h1, _, h3⟩ := processSoap_fold search qs ⟨[], [], [], []⟩ hall
  exact ⟨ev, h1, h3⟩

/-- Witness for C3: two queries with bucket-key foci, the first failing,
the second succeeding; the loop completes and the failure is data. -/
theorem c3_witness :
    ∃ ev, processSoapEvidence (ρ := Nat)
        (fun q => if q.text = "qa" then .error "timeout" else .ok 3)
        [⟨"qa", "medication", "high"⟩, ⟨"qb", "treatment", "high"⟩] = .ok ev
      ∧ ∀ q ∈ ([⟨"qa", "medication", "high"⟩, ⟨"qb", "treatment", "high"⟩] : List GenQuery),
          ∀ e, (if q.text = "qa" then (.error "timeout" : Except String Nat) else .ok 3) = .error e →
            QueryOutcome.failure q.text e ∈ bucketOf ev q.focus :=
  c3_failure_is_data (fun q => if q.text = "qa" then .error "timeout" else .ok 3)
    [⟨"qa", "medication", "high"⟩, ⟨"qb", "treatment", "high"⟩] (by decide)

/-- Appending under a fixed category succeeds and extends exactly that
category field. -/
theorem planAppend_ok (p : PlanCats) (c item : List Char)
    (hc : fixedPlanCats.contains c = true) :
    ∃ p', planAppend p c item = .ok p'
      ∧ ∀ cat, planField p' cat = if cat = c then planField p cat ++ [item] else planField p cat := by
  have hc' : c = "Diagnostics".data ∨ c = "Medications".data
      ∨ c = "Lifestyle".data ∨ c = "Follow-Up".data := by
    simpa [fixedPlanCats, List.contains, List.elem_eq_mem] using hc
  rcases hc' with rfl | rfl | rfl | rfl
  · refine ⟨{ p with diagnostics := p.diagnostics ++ [item] }, by simp [planAppend], fun cat => ?_⟩
    by_cases h1 : cat = "Diagnostics".data
    · subst h1
      simp [planField]
    · simp [planField, h1]
  · refine ⟨{ p with medications := p.medications ++ [item] }, by simp [planAppend], fun cat => ?_⟩
    by_cases h1 : cat = "Medications".data
    · subst h1
      simp [planField]
    · simp [planField, h1]
  · refine ⟨{ p with lifestyle := p.lifestyle ++ [item] }, by simp [planAppend], fun cat => ?_⟩
    by_cases h1 : cat = "Lifestyle".data
    · subst h1
      simp [planField]
    · simp [planField, h1]
  · refine ⟨{ p with followUp := p.followUp ++ [item] }, by simp [planAppend], fun cat => ?_⟩
    by_cases h1 : cat = "Follow-Up".data
    · subst h1
      simp [planField]
    · simp [planField, h1]

/-- Appending under a category outside the fixed set raises the KeyError. -/
theorem planAppend_err (p : PlanCats) (c item : List Char)
    (hc : fixedPlanCats.contains c = false) :
    planAppend p c item = .error c := by
  have hc' : ¬ (c = "Diagnostics".data ∨ c = "Medications".data
      ∨ c = "Lifestyle".data ∨ c = "Follow-Up".data) := by
    simpa [fixedPlanCats, List.contains, List.elem_eq_mem] using hc
  push_neg at hc'
  simp [planAppend, hc'.1, hc'.2.1, hc'.2.2.1, hc'.2.2.2]

/-- The plan line loop refines the companion scan and per-category
collector, from any starting state. -/
theorem parsePlanAux_spec :
    ∀ (lines : List (List Char)) (cur : Option (List Char)) (p : PlanCats),
      ((parsePlanAux lines cur p).isOk = planScanOk lines cur)
      ∧ (∀ q, parsePlanAux lines cur p = .ok q →
          ∀ cat, planField q cat = planField p cat ++ planCollect cat lines cur) := by
  intro lines
  induction lines with
  | nil =>
    intro cur p
    refine ⟨rfl, fun q hq cat => ?_⟩
    simp only [parsePlanAux] at hq
    cases hq
    simp [planCollect]
  | cons line rest ih =>
    intro cur p
    by_cases h1 : pyTrim line = []
    · have e1 : parsePlanAux (line :: rest) cur p = parsePlanAux rest cur p := by
        simp [parsePlanAux, h1]
      have e2 : planScanOk (line :: rest) cur = planScanOk rest cur := by
        simp [planScanOk, h1]
      have e3 : ∀ cat, planCollect cat (line :: rest) cur = planCollect cat rest cur := by
        intro cat
        simp [planCollect, h1]
      refine ⟨by rw [e1, e2]; exact (ih cur p).1, fun q hq cat => ?_⟩
      rw [e3 cat]
      exact (ih cur p).2 q (by rw [← e1]; exact hq) cat
    · by_cases h2 : (pyTrim line).getLast? = some ':'
      · have e1 : parsePlanAux (line :: rest) cur p
            = parsePlanAux rest (some (pyTrim line).dropLast) p := by
          simp [parsePlanAux, h1, h2]
        have e2 : planScanOk (line :: rest) cur
            = planScanOk rest (some (pyTrim line).dropLast) := by
          simp [planScanOk, h1, h2]
        have e3 : ∀ cat, planCollect cat (line :: rest) cur
            = planCollect cat rest (some (pyTrim line).dropLast) := by
          intro cat
          simp [planCollect, h1, h2]
        refine ⟨by rw [e1, e2]; exact (ih _ p).1, fun q hq cat => ?_⟩
        rw [e3 cat]
        exact (ih _ p).2 q (by rw [← e1]; exact hq) cat
      · cases cur with
        | none =>
          have e1 : parsePlanAux (line :: rest) none p = parsePlanAux rest none p := by
            simp [parsePlanAux, h1, h2]
          have e2 : planScanOk (line :: rest) none = planScanOk rest none := by
            simp [planScanOk, h1, h2]
          have e3 : ∀ cat, planCollect cat (line :: rest) none = planCollect cat rest none := by
            intro cat
            simp [planCollect, h1, h2]
          refine ⟨by rw [e1, e2]; exact (ih none p).1, fun q hq cat => ?_⟩
          rw [e3 cat]
          exact (ih none p).2 q (by rw [← e1]; exact hq) cat
        | some c =>
          by_cases hc0 : c = []
          · have e1 : parsePlanAux (line :: rest) (some c) p
                = parsePlanAux rest (some c) p := by
              simp [parsePlanAux, h1, h2, hc0]
            have e2 : planScanOk (line :: rest) (some c) = planScanOk rest (some c) := by
              simp [planScanOk, h1, h2, hc0]
            have e3 : ∀ cat, planCollect cat (line :: rest) (some c)
                = planCollect cat rest (some c) := by
              intro cat
              simp [planCollect, h1, h2, hc0]
            refine ⟨by rw [e1, e2]; exact (ih (some c) p).1, fun q hq cat => ?_⟩
            rw [e3 cat]
            exact (ih (some c) p).2 q (by rw [← e1]; exact hq) cat
          · by_cases h3 : (pyTrim line).head? = some '-'
            · cases hc : fixedPlanCats.contains c with
              | true =>
                obtain ⟨p', hp1, hp2⟩ := planAppend_ok p c (pyTrim ((pyTrim line).tail)) hc
                have e1 : parsePlanAux (line :: rest) (some c) p
                    = parsePlanAux rest (some c) p' := by
                  simp [parsePlanAux, h1, h2, hc0, h3, hp1]
                have e2 : planScanOk (line :: rest) (some c) = planScanOk rest (some c) := by
                  have e2' : planScanOk (line :: rest) (some c)
                      = (fixedPlanCats.contains c && planScanOk rest (some c)) := by
                    simp [planScanOk, h1, h2, hc0, h3]
                  rw [e2', hc, Bool.true_and]
                have e3 : ∀ cat, planCollect cat (line :: rest) (some c)
                    = if c = cat then pyTrim ((pyTrim line).drop 1) :: planCollect cat rest (some c)
                      else planCollect cat rest (some c) := by
                  intro cat
                  simp [planCollect, h1, h2, hc0, h3]
                refine ⟨by rw [e1, e2]; exact (ih (some c) p').1, fun q hq cat => ?_⟩
                rw [e3 cat]
                have hfield := (ih (some c) p').2 q (by rw [← e1]; exact hq) cat
                rw [hfield, hp2 cat]
                by_cases hcc : c = cat
                · subst hcc
                  simp
                · have hcc' : ¬ (cat = c) := fun h => hcc h.symm
                  simp [hcc, hcc']
              | false =>
                have e1 : parsePlanAux (line :: rest) (some c) p = .error c := by
                  simp [parsePlanAux, h1, h2, hc0, h3, planAppend_err p c _ hc]
                have e2 : planScanOk (line :: rest) (some c) = false := by
                  have e2' : planScanOk (line :: rest) (some c)
                      = (fixedPlanCats.contains c && planScanOk rest (some c)) := by
                    simp [planScanOk, h1, h2, hc0, h3]
                  rw [e2', hc, Bool.false_and]
                refine ⟨by rw [e1, e2]; rfl, fun q hq cat => ?_⟩
                rw [e1] at hq
                cases hq
            · have e1 : parsePlanAux (line :: rest) (some c) p
                  = parsePlanAux rest (some c) p := by
                simp [parsePlanAux, h1, h2, h3]
              have e2 : planScanOk (line :: rest) (some c) = planScanOk rest (some c) := by
                simp [planScanOk, h1, h2, h3]
              have e3 : ∀ cat, planCollect cat (line :: rest) (some c)
                  = planCollect cat rest (some c) := by
                intro cat
                simp [planCollect, h1, h2, h3]
              refine ⟨by rw [e1, e2]; exact (ih (some c) p).1, fun q hq cat => ?_⟩
              rw [e3 cat]
              exact (ih (some c) p).2 q (by rw [← e1]; exact hq) cat

/-- C4 counterexample: a plan text whose colon line names a category
outside the fixed set and is followed by a bullet makes _parse_plan raise
a KeyError instead of returning, and the colon line did open the foreign
category rather than being rejected against the fixed set. -/
theorem c4_counterexample :
    parsePlan ("Other:\n- start aspirin".data) = .error ("Other".data) := by
  rfl

/-- C4 (amended): _parse_plan returns a mapping over exactly the four
fixed categories precisely when no bullet line sits under an open
nonempty category outside the fixed set; a line ending in a colon opens
the named category whether or not it is fixed, bullet lines append their
stripped tail to the open category, and all other lines are ignored; a
bullet under a foreign nonempty category raises a KeyError carrying that
category name, while a bullet under the empty category name opened by a
bare colon line is skipped by the truthiness guard, like a bullet with no
open category at all. -/
theorem c4_parse_plan (s : List Char) :
    ((parsePlan s).isOk = planScanOk (pySplitLines s) none)
    ∧ (∀ q, parsePlan s = .ok q →
        q.diagnostics = planCollect "Diagnostics".data (pySplitLines s) none
        ∧ q.medications = planCollect "Medications".data (pySplitLines s) none
        ∧ q.lifestyle = planCollect "Lifestyle".data (pySplitLines s) none
        ∧ q.followUp = planCollect "Follow-Up".data (pySplitLines s) none) := by
  obtain ⟨hA, hB⟩ := parsePlanAux_spec (pySplitLines s) none ⟨[], [], [], []⟩
  refine ⟨hA, fun q hq => ?_⟩
  have h1 := hB q hq "Diagnostics".data
  have h2 := hB q hq "Medications".data
  have h3 := hB q hq "Lifestyle".data
  have h4 := hB q hq "Follow-Up".data
  simp [planField] at h1 h2 h3 h4
  exact ⟨h1, h2, h3, h4⟩

/-- Witness for C4 on a two-category plan text. -/
theorem c4_witness :
    PlanCats.diagnostics ⟨["ECG".data], ["lisinopril".data], [], []⟩
      = planCollect "Diagnostics".data
          (pySplitLines "Diagnostics:\n- ECG\nMedications:\n- lisinopril".data) none
    ∧ PlanCats.medications ⟨["ECG".data], ["lisinopril".data], [], []⟩
      = planCollect "Medications".data
          (pySplitLines "Diagnostics:\n- ECG\nMedications:\n- lisinopril".data) none
    ∧ PlanCats.lifestyle ⟨["ECG".data], ["lisinopril".data], [], []⟩
      = planCollect "Lifestyle".data
          (pySplitLines "Diagnostics:\n- ECG\nMedications:\n- lisinopril".data) none
    ∧ PlanCats.followUp ⟨["ECG".data], ["lisinopril".data], [], []⟩
      = planCollect "Follow-Up".data
          (pySplitLines "Diagnostics:\n- ECG\nMedications:\n- lisinopril".data) none :=
  (c4_parse_plan "Diagnostics:\n- ECG\nMedications:\n- lisinopril".data).2
    ⟨["ECG".data], ["lisinopril".data], [], []⟩ (by rfl)

/-- C5 counterexample: a note with no section markers at all and no
identity fields parses successfully (header date alone suffices), while
the claim requires a ParseError when markers are absent; moreover no
ParseError type exists in the repository. -/
theorem c5_counterexample :
    (parse_soap_note "date: 2024-01-01".data).isOk = true := by
  rfl

/-- C5 (amended): parse_soap_note fails, raising ValueError or KeyError
rather than a ParseError, exactly when the plan section has a bullet under
a category outside the fixed set, or the header carries an age value that
is not a valid integer literal, or the header date value is not a valid
year-month-day date; absent or malformed section markers and missing
identity fields never by themselves cause failure. -/
theorem c5_parse_failure_conditions (text : List Char) :
    (parse_soap_note text).isOk
      = ((parsePlan (((splitIntoSections text).P).getD [])).isOk
         && ageOk (headerInfo text) && dateOk (headerInfo text)) := by
  simp only [parse_soap_note, headerInfo]
  cases hp : parsePlan (((splitIntoSections text).P).getD []) with
  | error c => simp [Except.isOk, Except.toBool, ageOk, dateOk, hp]
  | ok plan =>
    cases hage : assocFind (extractPatientInfo (((splitIntoSections text).header).getD []))
        "age".data with
    | none =>
      cases hd : parseYMD ((assocFind (extractPatientInfo
          (((splitIntoSections text).header).getD [])) "date".data).getD []) with
      | none => simp [Except.isOk, Except.toBool, ageOk, dateOk, hage, hd]
      | some d => simp [Except.isOk, Except.toBool, ageOk, dateOk, hage, hd]
    | some v =>
      cases hv : pyIntParse v with
      | none => simp [Except.isOk, Except.toBool, ageOk, dateOk, hage, hv]
      | some a =>
        cases hd : parseYMD ((assocFind (extractPatientInfo
            (((splitIntoSections text).header).getD [])) "date".data).getD []) with
        | none => simp [Except.isOk, Except.toBool, ageOk, dateOk, hage, hv, hd]
        | some d => simp [Except.isOk, Except.toBool, ageOk, dateOk, hage, hv, hd]

/-- Characters in the lower-case letter range survive the round trip
through Char.ofNat. -/
theorem charOfNat_fixed : ∀ m : Nat, 97 ≤ m → m ≤ 122 → (Char.ofNat m).toNat = m := by
  intro m h1 h2
  interval_cases m <;> decide

/-- The cleaning character map is idempotent: its output is neither an
upper-case letter nor a hyphen nor a slash. -/
theorem normChar_fix (c : Char) : normChar (normChar c) = normChar c := by
  by_cases hu : 65 ≤ c.toNat ∧ c.toNat ≤ 90
  · have e1 : asciiLower c = Char.ofNat (c.toNat + 32) := by
      rw [asciiLower, if_pos hu]
    have ht : (Char.ofNat (c.toNat + 32)).toNat = c.toNat + 32 :=
      charOfNat_fixed _ (by omega) (by omega)
    have hne1 : Char.ofNat (c.toNat + 32) ≠ '-' := by
      intro h
      rw [h] at ht
      have h45 : ('-' : Char).toNat = 45 := rfl
      rw [h45] at ht
      omega
    have hne2 : Char.ofNat (c.toNat + 32) ≠ '/' := by
      intro h
      rw [h] at ht
      have h47 : ('/' : Char).toNat = 47 := rfl
      rw [h47] at ht
      omega
    have hnd : ¬ (Char.ofNat (c.toNat + 32) = '-' ∨ Char.ofNat (c.toNat + 32) = '/') := by
      rintro (h | h)
      · exact hne1 h
      · exact hne2 h
    have e2 : normChar c = Char.ofNat (c.toNat + 32) := by
      simp only [normChar]
      rw [e1, if_neg hnd]
    rw [e2]
    have hu2 : ¬ (65 ≤ (Char.ofNat (c.toNat + 32)).toNat
        ∧ (Char.ofNat (c.toNat + 32)).toNat ≤ 90) := by
      rw [ht]
      omega
    simp only [normChar]
    rw [asciiLower, if_neg hu2, if_neg hnd]
  · have e1 : asciiLower c = c := by rw [asciiLower, if_neg hu]
    by_cases hd : c = '-' ∨ c = '/'
    · have e2 : normChar c = ' ' := by
        simp only [normChar]
        rw [e1, if_pos hd]
      rw [e2]
      decide
    · have e2 : normChar c = c := by
        simp only [normChar]
        rw [e1, if_neg hd]
      rw [e2, e2]

/-- The head of a dropWhile result does not satisfy the predicate. -/
theorem head?_dropWhile_false (p : α → Bool) (l : List α) :
    ∀ x, (l.dropWhile p).head? = some x → p x = false := by
  induction l with
  | nil =>
    intro x hx
    simp at hx
  | cons a t ih =>
    intro x hx
    by_cases ha : p a = true
    · rw [List.dropWhile_cons, if_pos ha] at hx
      exact ih x hx
    · rw [List.dropWhile_cons, if_neg ha] at hx
      simp at hx
      rw [← hx]
      exact eq_false_of_ne_true ha

/-- dropWhile leaves a list unchanged when its head fails the predicate. -/
theorem dropWhile_eq_self (p : α → Bool) (l : List α)
    (h : ∀ x, l.head? = some x → p x = false) : l.dropWhile p = l := by
  cases l with
  | nil => rfl
  | cons a t =>
    rw [List.dropWhile_cons, if_neg]
    rw [h a rfl]
    simp

/-- dropWhile is idempotent. -/
theorem dropWhile_dropWhile (p : α → Bool) (l : List α) :
    (l.dropWhile p).dropWhile p = l.dropWhile p :=
  dropWhile_eq_self p _ (head?_dropWhile_false p l)

/-- dropWhile keeps the last element when its result is nonempty. -/
theorem getLast?_dropWhile (p : α → Bool) (l : List α) (h : l.dropWhile p ≠ []) :
    (l.dropWhile p).getLast? = l.getLast? := by
  induction l with
  | nil => simp at h
  | cons a t ih =>
    by_cases ha : p a = true
    · rw [List.dropWhile_cons, if_pos ha] at h ⊢
      rw [ih h]
      have ht : t ≠ [] := by
        intro he
        rw [he] at h
        simp at h
      cases t with
      | nil => exact absurd rfl ht
      | cons b t2 => rw [List.getLast?_cons_cons]
    · rw [List.dropWhile_cons, if_neg ha]

/-- Python strip is idempotent. -/
theorem pyTrim_idem (l : List Char) : pyTrim (pyTrim l) = pyTrim l := by
  show pyTrim (((l.dropWhile isPySpace).reverse.dropWhile isPySpace).reverse) = _
  have h1 : ((l.dropWhile isPySpace).reverse.dropWhile isPySpace).reverse.dropWhile isPySpace
      = ((l.dropWhile isPySpace).reverse.dropWhile isPySpace).reverse := by
    apply dropWhile_eq_self
    intro x hx
    rw [List.head?_reverse] at hx
    have hbne : (l.dropWhile isPySpace).reverse.dropWhile isPySpace ≠ [] := by
      intro h0
      rw [h0] at hx
      simp at hx
    rw [getLast?_dropWhile _ _ hbne, List.getLast?_reverse] at hx
    exact head?_dropWhile_false isPySpace l x hx
  unfold pyTrim
  rw [h1, List.reverse_reverse, dropWhile_dropWhile]

/-- Members of the stripped list are members of the list. -/
theorem mem_pyTrim {x : Char} {l : List Char} (h : x ∈ pyTrim l) : x ∈ l := by
  unfold pyTrim at h
  rw [List.mem_reverse] at h
  have h1 := (List.dropWhile_sublist isPySpace
    (l := (l.dropWhile isPySpace).reverse)).subset h
  rw [List.mem_reverse] at h1
  exact (List.dropWhile_sublist isPySpace (l := l)).subset h1

/-- A map by a function fixing every member is the identity. -/
theorem map_eq_self_of_fix {f : α → α} {l : List α} (h : ∀ x ∈ l, f x = x) :
    l.map f = l := by
  induction l with
  | nil => rfl
  | cons a t ih =>
    have ha : f a = a := h a (by simp)
    have ht := ih (fun x hx => h x (by simp [hx]))
    simp [ha, ht]

/-- Every character of a cleaned string is fixed by the cleaning map. -/
theorem normChar_mem_preNormalize {x : Char} {l : List Char} (h : x ∈ preNormalize l) :
    normChar x = x := by
  unfold preNormalize at h
  have h1 := mem_pyTrim h
  obtain ⟨y, _, hy⟩ := List.mem_map.mp h1
  rw [← hy]
  exact normChar_fix y

/-- The cleaning stage of the publication-type normalizer is idempotent. -/
theorem preNormalize_idem (l : List Char) : preNormalize (preNormalize l) = preNormalize l := by
  have h1 : (preNormalize l).map normChar = preNormalize l :=
    map_eq_self_of_fix (fun x hx => normChar_mem_preNormalize hx)
  show pyTrim ((preNormalize l).map normChar) = preNormalize l
  rw [h1]
  show pyTrim (pyTrim (l.map normChar)) = pyTrim (l.map normChar)
  exact pyTrim_idem _

/-- Each standard type of the synonym table is a fixed point of the
normalizer. -/
theorem pubTable_keys_fixed :
    ∀ std ∈ pubTypeTable.map (·.1), normalizePubTypeL std.data = std.data := by
  decide

/-- The publication-type normalizer is idempotent at the list level. -/
theorem normalizePubTypeL_idem (l : List Char) :
    normalizePubTypeL (normalizePubTypeL l) = normalizePubTypeL l := by
  cases hm : pubTypeFirstMatch (preNormalize l) with
  | some std =>
    have hstd : std ∈ pubTypeTable.map (·.1) := by
      unfold pubTypeFirstMatch at hm
      obtain ⟨p, hp, hp2⟩ := Option.map_eq_some'.mp hm
      exact List.mem_map.mpr ⟨p, List.mem_of_find?_eq_some hp, hp2⟩
    have h1 : normalizePubTypeL l = std.data := by
      unfold normalizePubTypeL
      rw [hm]
    rw [h1]
    exact pubTable_keys_fixed std hstd
  | none =>
    have h1 : normalizePubTypeL l = preNormalize l := by
      unfold normalizePubTypeL
      rw [hm]
    have h2 : pubTypeFirstMatch (preNormalize (preNormalize l)) = none := by
      rw [preNormalize_idem]
      exact hm
    rw [h1]
    unfold normalizePubTypeL
    rw [h2, preNormalize_idem]

/-- C8 (confirmed): normalize_publication_type is idempotent on every
input string, and canonicalization identifies case and punctuation
variants: the British spelling of the randomized controlled trial label
and the abbreviation RCT canonicalize identically, as do case and
hyphen-slash variants of other labels. -/
theorem c8_normalize_idempotent :
    (∀ s : String,
       normalize_publication_type (normalize_publication_type s)
         = normalize_publication_type s)
    ∧ normalize_publication_type "Randomised Controlled Trial"
        = normalize_publication_type "RCT"
    ∧ normalize_publication_type "CLINICAL TRIAL"
        = normalize_publication_type "clinical trial"
    ∧ normalize_publication_type "Meta-Analysis"
        = normalize_publication_type "meta/analysis" := by
  refine ⟨?_, rfl, rfl, rfl⟩
  intro s
  show (⟨normalizePubTypeL (normalizePubTypeL s.data)⟩ : String) = ⟨normalizePubTypeL s.data⟩
  rw [normalizePubTypeL_idem]

/-- Witness for C5 at the well-formed demonstration note. -/
theorem c5_witness :
    (parse_soap_note demoNote.data).isOk
      = ((parsePlan (((splitIntoSections demoNote.data).P).getD [])).isOk
         && ageOk (headerInfo demoNote.data) && dateOk (headerInfo demoNote.data)) :=
  c5_parse_failure_conditions demoNote.data

/-- Witness for C8 at a concrete hyphenated label. -/
theorem c8_witness :
    normalize_publication_type (normalize_publication_type "Case-Control Study")
      = normalize_publication_type "Case-Control Study" :=
  c8_normalize_idempotent.1 "Case-Control Study"
